import Mathlib

/-!
Verification development for the Medical-Guide-Assistant repository.

This file shallowly embeds, in Lean 4, the pieces of the repository that
carry the specification's invariants:

* the data model (`src/types.ts`),
* the history storage service (`storageService` in
  `src/services/storageService.ts`: `saveItem`, `deleteItem`),
* the profile service (`profileService.deleteProfile` in
  `src/services/profileService.ts`) and the delete handler of the profile
  selector component (`handleDelete` in `ProfileSelector.tsx`),
* the job lifecycle of `src/App.tsx` (`handleAnalysis` split into its
  synchronous submission phase and the asynchronous settlement function
  `performAnalysis`, the load-time `init` repair, `saveToHistory`,
  `handleChatUpdate`),
* the trend aggregation of `src/App.tsx` (`getIndicatorTrend`,
  `formatDateShort`).

Modelling conventions:

* TypeScript optional fields (`x?: T`, value possibly `undefined`) become
  `Option T`.  JavaScript truthiness tests on optional strings
  (`!h.profileId`, `item.reportDate || fallback`, `err.message || fallback`)
  are embedded by `jsFalsy` / `jsOrString`, which treat both `undefined`
  (`none`) and the empty string as falsy, exactly as JavaScript does.
* JavaScript numbers are embedded as `Int` (indicator values) or `Nat`
  (epoch-millisecond timestamps); no claim depends on fractional values.
* The browser stores (IndexedDB history store, localStorage profile store)
  are explicit list-valued state threaded through the functions; an `async`
  function is embedded as a pure state transformer, the single-threaded
  event loop of the host making each of the embedded code paths atomic
  between its `await` points.
* `Array.prototype.sort` (stable per ECMAScript) is embedded as a stable
  insertion sort over the same comparator key; for a fixed total preorder
  every stable sort produces the same list, so this is faithful to any
  conforming engine.
* `new Date(s).getTime()` on the `YYYY-MM-DD` date strings used by the app
  is embedded by the monotone key `parseTime`, and the
  `getFullYear/getMonth/getDate` formatting of `formatDateShort` by a civil
  date computed (in UTC) from the epoch-millisecond timestamp.
-/

/-! ## Data model (`src/types.ts`) -/

inductive AnalysisType where
  | REPORT
  | MEDICATION
  | UNKNOWN
deriving DecidableEq

inductive IndicatorStatus where
  | HIGH
  | LOW
  | NORMAL
  | CRITICAL
  | BORDERLINE
  | UNKNOWN
deriving DecidableEq

/-- Embeds `HistoricalValue` of `types.ts`; the optional `isCurrent` UI flag is
embedded with default `false` (the trend code always assigns it
explicitly). -/
structure HistoricalValue where
  date : String
  value : Int
  isCurrent : Bool := false
deriving DecidableEq

structure ReferenceRange where
  min : Int
  max : Int
deriving DecidableEq

structure Indicator where
  name : String
  value : String
  valueNumber : Option Int := none
  unit : Option String := none
  status : IndicatorStatus := .UNKNOWN
  explanation : String := ""
  possibleCauses : String := ""
  referenceRange : Option ReferenceRange := none
  history : Option (List HistoricalValue) := none
deriving DecidableEq

structure MedicationInfo where
  name : String
  usage : String
  warnings : List String
  sideEffects : String
  tips : String
deriving DecidableEq

structure AnalysisResult where
  type : AnalysisType
  summary : String := ""
  indicators : Option (List Indicator) := none
  medication : Option MedicationInfo := none
  questionsForDoctor : List String := []
  disclaimer : String := ""
deriving DecidableEq

inductive HistoryStatus where
  | processing
  | completed
  | failed
deriving DecidableEq

inductive ChatRole where
  | user
  | model
deriving DecidableEq

structure ChatMessage where
  role : ChatRole
  content : String
deriving DecidableEq

structure HistoryItem where
  id : String
  profileId : Option String := none
  timestamp : Nat := 0
  reportDate : Option String := none
  status : HistoryStatus
  result : Option AnalysisResult := none
  thumbnail : Option String := none
  summary : Option String := none
  chatHistory : Option (List ChatMessage) := none
  originalImages : Option (List String) := none
deriving DecidableEq

structure PatientContext where
  age : Option String := none
  gender : Option String := none
  condition : Option String := none
  reportDate : Option String := none
deriving DecidableEq

structure UserProfile where
  id : String
  name : String
  relation : String
  avatarColor : String
  context : PatientContext
deriving DecidableEq

/-! ## JavaScript string truthiness helpers -/

/-- JavaScript truthiness test on an optional string: `undefined` and `""`
are the falsy values (`!s`). -/
def jsFalsy : Option String → Bool
  | none => true
  | some s => s == ""

/-- JavaScript `s || d` on an optional string `s`: the default is taken
when `s` is `undefined` or the empty string. -/
def jsOrString : Option String → String → String
  | none, d => d
  | some s, d => if s == "" then d else s

/-! ## Storage service (`src/services/storageService.ts`) -/

namespace storageService

/-- Embeds `storageService.saveItem`: replaces the entry with a matching id in
place, otherwise prepends the new item; then truncates the list to the
first 50 entries when it is longer.  `current` is the list read from the
store (`getAll`); the returned list is both persisted and returned. -/
def saveItem (item : HistoryItem) (current : List HistoryItem) : List HistoryItem :=
  let updated : List HistoryItem :=
    match current.findIdx? (fun i => i.id == item.id) with
    | some index => current.set index item
    | none => item :: current
  if updated.length > 50 then updated.take 50 else updated

/-- Embeds `storageService.deleteItem`: removes every entry with the given id. -/
def deleteItem (id : String) (current : List HistoryItem) : List HistoryItem :=
  current.filter (fun i => !(i.id == id))

end storageService

/-! ## Profile service (`src/services/profileService.ts`) -/

namespace profileService

/-- The `DEFAULT_PROFILE` constant of `profileService.ts`. -/
def DEFAULT_PROFILE : UserProfile :=
  { id := "default_me"
    name := "我自己"
    relation := "Me"
    avatarColor := "#0d9488"
    context := { age := some "", gender := some "", condition := some "" } }

/-- Embeds `profileService.deleteProfile`: filters the given id out of the stored
profile list, substituting the default profile if the result is empty.
`profiles` is the list read from the store (`getProfiles`); the returned
list is both persisted and returned. -/
def deleteProfile (id : String) (profiles : List UserProfile) : List UserProfile :=
  let filtered := profiles.filter (fun p => !(p.id == id))
  if filtered.isEmpty then [DEFAULT_PROFILE] else filtered

end profileService

/-- Embeds `handleDelete` of `ProfileSelector.tsx` (the path following a confirmed
dialog): deletes the profile and, when the deleted profile was the active
one, hands the first remaining profile's id to `onProfileChange`.  Returns
the new profile list and the new active profile id.  The `headD` default is
unreachable: `deleteProfile` never returns an empty list. -/
def handleDelete (id : String) (profiles : List UserProfile) (activeProfileId : String) :
    List UserProfile × String :=
  let updated := profileService.deleteProfile id profiles
  (updated, if activeProfileId == id then (updated.headD profileService.DEFAULT_PROFILE).id
            else activeProfileId)

/-! ## Application state (`src/App.tsx`) -/

/-- The React state of `App` that the embedded operations touch, together
with the persistent history store backing `storageService`. -/
structure AppState where
  history : List HistoryItem
  store : List HistoryItem
  images : List String := []
  loading : Bool := false
  result : Option AnalysisResult := none
  error : Option String := none
  activeHistoryId : Option String := none
deriving DecidableEq

/-- Embeds `saveToHistory` of `App.tsx`: persists the item through
`storageService.saveItem` (which reads the current store contents) and
points the in-memory history at the updated list. -/
def saveToHistory (newItem : HistoryItem) (s : AppState) : AppState :=
  let updated := storageService.saveItem newItem s.store
  { s with store := updated, history := updated }

/-- The `processingItem` record built by `handleAnalysis` (`App.tsx`
lines 236-245). -/
def processingItem (taskId : String) (activeProfileId : String) (now : Nat)
    (reportDate : String) (thumbnail : String) (previewImages : List String) : HistoryItem :=
  { id := taskId
    profileId := some activeProfileId
    timestamp := now
    reportDate := some reportDate
    status := .processing
    thumbnail := some thumbnail
    summary := none
    result := none
    chatHistory := some []
    originalImages := some previewImages }

/-- The synchronous part of `handleAnalysis` (`App.tsx` lines 247-259) that
runs before `performAnalysis` — and hence before the external analysis
capability — is invoked.  Returns the new state together with the list of
history-store writes performed during this phase. -/
def submitPhase (runInBackground : Bool) (previewImages : List String)
    (item : HistoryItem) (s : AppState) : AppState × List HistoryItem :=
  if runInBackground then
    let s1 := saveToHistory item s
    ({ s1 with images := [], result := none, error := none, activeHistoryId := none }, [item])
  else
    ({ s with images := previewImages, loading := true, error := none, result := none,
              activeHistoryId := some item.id }, [])

/-- A JavaScript error value as observed by the `catch (err: any)` clause:
only its (possibly absent) `message` field is consumed. -/
structure JsError where
  message : Option String := none
deriving DecidableEq

/-- Embeds `performAnalysis` of `handleAnalysis` (`App.tsx` lines 261-293):
settlement of the external analysis call.  The call's outcome is passed in
as `outcome`; `errorGeneric` is `t.errorGeneric` for the active language.
Every rejection is caught by the embedded `catch` clause, so the function
is total.  Returns the new state together with the list of history-store
writes performed during settlement. -/
def performAnalysis (runInBackground : Bool) (item : HistoryItem)
    (outcome : Except JsError AnalysisResult) (errorGeneric : String) (s : AppState) :
    AppState × List HistoryItem :=
  match outcome with
  | .ok data =>
    let completedItem : HistoryItem := { item with status := .completed, result := some data }
    let s1 := saveToHistory completedItem s
    (if runInBackground then s1
     else { s1 with result := some data, loading := false, activeHistoryId := some item.id },
     [completedItem])
  | .error err =>
    let errorMessage := jsOrString err.message errorGeneric
    let failedItem : HistoryItem := { item with status := .failed, summary := some errorMessage }
    let s1 := saveToHistory failedItem s
    (if runInBackground then s1
     else { s1 with error := some errorMessage, loading := false, activeHistoryId := none },
     [failedItem])

/-- Embeds `handleAnalysis` (`App.tsx` lines 229-294) end to end: the submission
phase followed by settlement, with the concatenated write log. -/
def handleAnalysis (runInBackground : Bool) (previewImages : List String)
    (item : HistoryItem) (outcome : Except JsError AnalysisResult) (errorGeneric : String)
    (s : AppState) : AppState × List HistoryItem :=
  let p1 := submitPhase runInBackground previewImages item s
  let p2 := performAnalysis runInBackground item outcome errorGeneric p1.1
  (p2.1, p1.2 ++ p2.2)

/-! ## Load-time repair (`init` in `App.tsx`) -/

/-- The per-item cleaning step of `init` (`App.tsx` lines 80-85):
a `processing` item becomes `failed` with the standard interrupted summary
and no result; every other item passes through unchanged. -/
def cleanItem (taskInterrupted : String) (item : HistoryItem) : HistoryItem :=
  if item.status = .processing then
    { item with status := .failed, result := none, summary := some taskInterrupted }
  else item

/-- Embeds `init` of `App.tsx` (lines 70-87), history part: reads the store,
cleans every `processing` item in the in-memory copy, and sets the React
history state.  Returns `(in-memory history, store after init)`; the store
is read but never written during this code path (the legacy-localStorage
migration that precedes the read only ever writes when the store is empty
and legacy data exists, which it is not in the states modelled here). -/
def init (taskInterrupted : String) (store : List HistoryItem) :
    List HistoryItem × List HistoryItem :=
  (store.map (cleanItem taskInterrupted), store)

/-! ## Chat transcript update (`handleChatUpdate` in `App.tsx`) -/

/-- Embeds `handleChatUpdate` of `App.tsx` (lines 296-303): when an active history
id is set (non-null, non-empty — JavaScript truthiness) and an item with
that id exists in the in-memory history, the item's chat transcript is
replaced with the given message list and the updated item is persisted via
`saveToHistory`.  No status check is performed. -/
def handleChatUpdate (newMessages : List ChatMessage) (s : AppState) : AppState :=
  match s.activeHistoryId with
  | none => s
  | some id =>
    if id == "" then s
    else
      match s.history.find? (fun h => h.id == id) with
      | none => s
      | some currentItem =>
        saveToHistory { currentItem with chatHistory := some newMessages } s

/-! ## Trend aggregation (`getIndicatorTrend` in `App.tsx`) -/

/-- Two-digit zero padding (`padStart(2, '0')`). -/
def pad2 (n : Nat) : String :=
  if n < 10 then "0" ++ toString n else toString n

/-- Civil date `(year, month, day)` from a count of days since the Unix
epoch (Howard Hinnant's `civil_from_days`, restricted to non-negative
days). -/
def civilFromDays (days : Nat) : Nat × Nat × Nat :=
  let z := days + 719468
  let era := z / 146097
  let doe := z % 146097
  let yoe := (doe - doe / 1460 + doe / 36524 - doe / 146096) / 365
  let y := yoe + era * 400
  let doy := doe - (365 * yoe + yoe / 4 - yoe / 100)
  let mp := (5 * doy + 2) / 153
  let d := doy - (153 * mp + 2) / 5 + 1
  let m := if mp < 10 then mp + 3 else mp - 9
  (if m ≤ 2 then y + 1 else y, m, d)

/-- Embeds `formatDateShort` of `App.tsx` (lines 200-203): renders an
epoch-millisecond timestamp as `YYYY-MM-DD` (civil date taken in UTC). -/
def formatDateShort (timestamp : Nat) : String :=
  let c := civilFromDays (timestamp / 86400000)
  toString c.1 ++ "-" ++ pad2 c.2.1 ++ "-" ++ pad2 c.2.2

/-- Splits a character list on the dash character. -/
def splitDash : List Char → List (List Char)
  | [] => [[]]
  | c :: cs =>
    if c = '-' then [] :: splitDash cs
    else
      match splitDash cs with
      | g :: gs => (c :: g) :: gs
      | [] => [[c]]

/-- Decimal value of a non-empty run of digit characters, `none` on any
other input. -/
def natOfDigits : List Char → Nat → Option Nat
  | [], acc => some acc
  | c :: cs, acc => if c.isDigit then natOfDigits cs (acc * 10 + (c.toNat - 48)) else none

/-- Monotone embedding of `new Date(s).getTime()` for the `YYYY-MM-DD`
date strings the app produces: the key `y * 10000 + m * 100 + d` orders
such strings exactly as their parsed times do; strings of any other shape
get key 0. -/
def parseTime (s : String) : Nat :=
  match splitDash s.data with
  | [y, m, d] =>
    match y, natOfDigits y 0, natOfDigits m 0, natOfDigits d 0 with
    | _ :: _, some yv, some mv, some dv => yv * 10000 + mv * 100 + dv
    | _, _, _, _ => 0
  | _ => 0

/-- The profile filter applied to the history inside `getIndicatorTrend`
(and for `filteredHistory`): `!h.profileId || h.profileId === activeProfileId`. -/
def profileMatches (activeProfileId : String) (h : HistoryItem) : Bool :=
  jsFalsy h.profileId || h.profileId == some activeProfileId

/-- Embeds `String.prototype.includes`: `hasSub sub l` decides whether `sub`
occurs as a contiguous run inside `l`. -/
def hasSub (sub : List Char) : List Char → Bool
  | [] => List.isPrefixOf sub []
  | c :: cs => List.isPrefixOf sub (c :: cs) || hasSub sub cs

/-- The indicator-name correlation of `getIndicatorTrend`
(`App.tsx` lines 174-176): exact equality or substring containment in
either direction. -/
def indicatorMatches (indicatorName : String) (i : Indicator) : Bool :=
  i.name == indicatorName
    || hasSub indicatorName.data i.name.data
    || hasSub i.name.data indicatorName.data

/-- The resolved date of a history item in the trend scan:
`item.reportDate || formatDateShort(item.timestamp)`. -/
def resolvedDate (item : HistoryItem) : String :=
  jsOrString item.reportDate (formatDateShort item.timestamp)

/-- The per-item body of the trend scan (`App.tsx` lines 172-184): a
completed REPORT item whose first matching indicator carries a numeric
value contributes one point; every other item contributes nothing. -/
def trendPoint? (indicatorName : String) (item : HistoryItem) : Option HistoricalValue :=
  if item.status = .completed then
    match item.result with
    | some r =>
      if r.type = .REPORT then
        match r.indicators with
        | some inds =>
          match inds.find? (indicatorMatches indicatorName) with
          | some m =>
            match m.valueNumber with
            | some v => some { date := resolvedDate item, value := v, isCurrent := false }
            | none => none
          | none => none
        | none => none
      else none
    | none => none
  else none

/-- The raw trend scan of `getIndicatorTrend` (`App.tsx` lines 170-185):
scan the profile-filtered history in order and emit the items' points. -/
def trendPoints (history : List HistoryItem) (activeProfileId : String)
    (indicatorName : String) : List HistoricalValue :=
  (history.filter (profileMatches activeProfileId)).filterMap (trendPoint? indicatorName)

/-- Stable insertion of a point into a list ordered by `parseTime` of the
date: the new point goes after every element whose key is less than or
equal to its own. -/
def insertSorted (x : HistoricalValue) : List HistoricalValue → List HistoricalValue
  | [] => [x]
  | y :: ys =>
    if parseTime y.date ≤ parseTime x.date then y :: insertSorted x ys
    else x :: y :: ys

/-- Embeds the call `trend.sort((a, b) => new Date(a.date).getTime() - new Date(b.date).getTime())`
(`App.tsx` line 187): `Array.prototype.sort` is stable, and for a total
preorder the stable sort is unique, so this left-fold insertion sort (which
keeps equal-key elements in scan order) computes the same list. -/
def sortByParsedDate (l : List HistoricalValue) : List HistoricalValue :=
  l.foldl (fun acc x => insertSorted x acc) []

/-- The deduplication loop of `getIndicatorTrend` (`App.tsx`
lines 188-195): walk the sorted list, keeping only the first entry for
each date string; `seen` is the `seenDates` set. -/
def dedupByDate (seen : List String) : List HistoricalValue → List HistoricalValue
  | [] => []
  | x :: xs =>
    if x.date ∈ seen then dedupByDate seen xs
    else x :: dedupByDate (x.date :: seen) xs

/-- Embeds `getIndicatorTrend` of `App.tsx` (lines 166-198): scan, sort by parsed
date, deduplicate by date string, then recompute the `isCurrent` flag of
every entry as equality of its date with `currentDate`.  `currentVal` is a
parameter of the source function that its body never reads. -/
def getIndicatorTrend (history : List HistoryItem) (activeProfileId : String)
    (indicatorName : String) (currentVal : Int) (currentDate : String) :
    List HistoricalValue :=
  (dedupByDate [] (sortByParsedDate (trendPoints history activeProfileId indicatorName))).map
    fun t => { t with isCurrent := t.date == currentDate }

/-! ## Helper lemmas about the embedded trend pipeline -/

/-- Library fact: `find?` returns the head of the filtered list. -/
theorem find?_eq_head?_filter {α : Type} (p : α → Bool) (l : List α) :
    l.find? p = (l.filter p).head? := by
  induction l with
  | nil => rfl
  | cons x xs ih =>
    by_cases h : p x
    · rw [List.find?_cons_of_pos _ h, List.filter_cons, if_pos h, List.head?_cons]
    · rw [List.find?_cons_of_neg _ h, List.filter_cons, if_neg h, ih]

/-- If a list index was set to the value it already holds, the list is
unchanged. -/
theorem set_eq_self_of_getElem? {α : Type} {l : List α} {i : Nat} {a : α}
    (h : l[i]? = some a) : l.set i a = l := by
  induction l generalizing i with
  | nil => simp at h
  | cons x xs ih =>
    cases i with
    | zero =>
      simp only [List.getElem?_cons_zero, Option.some.injEq] at h
      simp [h]
    | succ n =>
      simp only [List.getElem?_cons_succ] at h
      simp [List.set_cons_succ, ih h]

/-- Inserting into a sorted list is a permutation of consing. -/
theorem insertSorted_perm (x : HistoricalValue) (acc : List HistoricalValue) :
    List.Perm (insertSorted x acc) (x :: acc) := by
  induction acc with
  | nil => exact List.Perm.refl _
  | cons y ys ih =>
    rw [insertSorted]
    by_cases h : parseTime y.date ≤ parseTime x.date
    · rw [if_pos h]
      exact (ih.cons y).trans (List.Perm.swap x y ys)
    · rw [if_neg h]

/-- Insertion preserves sortedness by the parsed-date key. -/
theorem insertSorted_pairwise {x : HistoricalValue} {acc : List HistoricalValue}
    (h : acc.Pairwise (fun a b => parseTime a.date ≤ parseTime b.date)) :
    (insertSorted x acc).Pairwise (fun a b => parseTime a.date ≤ parseTime b.date) := by
  induction acc with
  | nil => simp [insertSorted]
  | cons y ys ih =>
    rw [insertSorted]
    rcases List.pairwise_cons.mp h with ⟨hy, hys⟩
    by_cases hle : parseTime y.date ≤ parseTime x.date
    · rw [if_pos hle]
      refine List.pairwise_cons.mpr ⟨?_, ih hys⟩
      intro z hz
      rcases List.mem_cons.mp ((insertSorted_perm x ys).mem_iff.mp hz) with rfl | hz'
      · exact hle
      · exact hy z hz'
    · rw [if_neg hle]
      have hxy : parseTime x.date ≤ parseTime y.date := Nat.le_of_not_le hle
      refine List.pairwise_cons.mpr ⟨?_, h⟩
      intro z hz
      rcases List.mem_cons.mp hz with rfl | hz'
      · exact hxy
      · exact Nat.le_trans hxy (hy z hz')

/-- The insertion-sort fold is a permutation of the accumulator followed by
the input. -/
theorem foldl_insertSorted_perm (l acc : List HistoricalValue) :
    List.Perm (List.foldl (fun acc x => insertSorted x acc) acc l) (acc ++ l) := by
  induction l generalizing acc with
  | nil => simp
  | cons x xs ih =>
    have h1 : List.Perm (List.foldl (fun acc x => insertSorted x acc) (insertSorted x acc) xs)
        (insertSorted x acc ++ xs) := ih _
    have h2 : List.Perm (insertSorted x acc ++ xs) ((x :: acc) ++ xs) :=
      (insertSorted_perm x acc).append_right xs
    exact (h1.trans h2).trans List.perm_middle.symm

/-- The embedded sort permutes its input. -/
theorem sortByParsedDate_perm (l : List HistoricalValue) :
    List.Perm (sortByParsedDate l) l := by
  simpa using foldl_insertSorted_perm l []

/-- The embedded sort sorts by the parsed-date key. -/
theorem sortByParsedDate_pairwise (l : List HistoricalValue) :
    (sortByParsedDate l).Pairwise (fun a b => parseTime a.date ≤ parseTime b.date) := by
  suffices h : ∀ (l acc : List HistoricalValue),
      acc.Pairwise (fun a b => parseTime a.date ≤ parseTime b.date) →
      (List.foldl (fun acc x => insertSorted x acc) acc l).Pairwise
        (fun a b => parseTime a.date ≤ parseTime b.date) from
    h l [] (List.Pairwise.nil)
  intro l
  induction l with
  | nil => intro acc h; simpa using h
  | cons x xs ih => intro acc h; exact ih _ (insertSorted_pairwise h)

/-- Inserting a point of another date does not change the entries of a given
date. -/
theorem insertSorted_filter_neg {x : HistoricalValue} {d : String}
    (hx : (x.date == d) = false) (acc : List HistoricalValue) :
    (insertSorted x acc).filter (fun e => e.date == d)
      = acc.filter (fun e => e.date == d) := by
  induction acc with
  | nil => simp [insertSorted, List.filter_cons, hx]
  | cons y ys ih =>
    rw [insertSorted]
    by_cases hle : parseTime y.date ≤ parseTime x.date
    · rw [if_pos hle, List.filter_cons, List.filter_cons, ih]
    · rw [if_neg hle, List.filter_cons]
      simp [hx]

/-- Stability of the embedded sort, insertion step: a point of the given
date lands behind every point of that date already present (all of them
share one parsed-date key, and insertion goes past every element of a key
less than or equal to its own). -/
theorem insertSorted_filter_pos {x : HistoricalValue} {d : String}
    (hx : (x.date == d) = true) {acc : List HistoricalValue}
    (hacc : acc.Pairwise (fun a b => parseTime a.date ≤ parseTime b.date)) :
    (insertSorted x acc).filter (fun e => e.date == d)
      = acc.filter (fun e => e.date == d) ++ [x] := by
  induction acc with
  | nil => simp [insertSorted, List.filter_cons, hx]
  | cons y ys ih =>
    rcases List.pairwise_cons.mp hacc with ⟨hy, hys⟩
    rw [insertSorted]
    by_cases hle : parseTime y.date ≤ parseTime x.date
    · rw [if_pos hle, List.filter_cons, List.filter_cons]
      by_cases hyd : (y.date == d) = true
      · rw [if_pos hyd, if_pos hyd, ih hys, List.cons_append]
      · rw [if_neg (by simp_all), if_neg (by simp_all), ih hys]
    · rw [if_neg hle]
      have hxd : x.date = d := by simpa using hx
      have hxy : parseTime x.date < parseTime y.date := Nat.lt_of_not_le hle
      have hnone : (y :: ys).filter (fun e => e.date == d) = [] := by
        rw [List.filter_eq_nil_iff]
        intro e he hed
        have hede : e.date = d := by simpa using hed
        have hkey : parseTime e.date = parseTime x.date := by rw [hede, hxd]
        rcases List.mem_cons.mp he with rfl | he'
        · exact absurd hkey (Nat.ne_of_gt hxy)
        · exact absurd (hy e he') (Nat.not_le.mpr (hkey ▸ hxy))
      rw [List.filter_cons, if_pos hx, hnone]
      rfl

/-- Stability of the embedded sort: the subsequence of points of one date
is preserved (all such points compare equal, and the sort is stable). -/
theorem sortByParsedDate_filter (l : List HistoricalValue) (d : String) :
    (sortByParsedDate l).filter (fun e => e.date == d)
      = l.filter (fun e => e.date == d) := by
  suffices h : ∀ (l acc : List HistoricalValue),
      acc.Pairwise (fun a b => parseTime a.date ≤ parseTime b.date) →
      (List.foldl (fun acc x => insertSorted x acc) acc l).filter (fun e => e.date == d)
        = acc.filter (fun e => e.date == d) ++ l.filter (fun e => e.date == d) by
    simpa using h l [] List.Pairwise.nil
  intro l
  induction l with
  | nil => intro acc _; simp
  | cons x xs ih =>
    intro acc hacc
    rw [List.foldl_cons, ih _ (insertSorted_pairwise hacc), List.filter_cons]
    by_cases hx : (x.date == d) = true
    · rw [insertSorted_filter_pos hx hacc, if_pos hx, List.append_assoc,
        List.singleton_append]
    · rw [insertSorted_filter_neg (by simp_all) acc, if_neg (by simp_all)]

/-- Deduplication yields a sublist (it only drops elements). -/
theorem dedupByDate_sublist (seen : List String) (l : List HistoricalValue) :
    (dedupByDate seen l).Sublist l := by
  induction l generalizing seen with
  | nil => simp [dedupByDate]
  | cons x xs ih =>
    rw [dedupByDate]
    by_cases h : x.date ∈ seen
    · rw [if_pos h]; exact (ih seen).cons x
    · rw [if_neg h]; exact (ih _).cons₂ x

/-- Every surviving entry has a date outside the already-seen set. -/
theorem dedupByDate_date_not_seen {seen : List String} {l : List HistoricalValue}
    {x : HistoricalValue} (hx : x ∈ dedupByDate seen l) : x.date ∉ seen := by
  induction l generalizing seen with
  | nil => simp [dedupByDate] at hx
  | cons y ys ih =>
    rw [dedupByDate] at hx
    by_cases h : y.date ∈ seen
    · rw [if_pos h] at hx; exact ih hx
    · rw [if_neg h] at hx
      rcases List.mem_cons.mp hx with rfl | hx'
      · exact h
      · exact fun hs => ih hx' (List.mem_cons_of_mem _ hs)

/-- After deduplication the date strings are pairwise distinct. -/
theorem dedupByDate_dates_nodup (seen : List String) (l : List HistoricalValue) :
    ((dedupByDate seen l).map (fun e => e.date)).Nodup := by
  induction l generalizing seen with
  | nil => simp [dedupByDate]
  | cons x xs ih =>
    rw [dedupByDate]
    by_cases h : x.date ∈ seen
    · rw [if_pos h]; exact ih seen
    · rw [if_neg h]
      simp only [List.map_cons, List.nodup_cons]
      refine ⟨?_, ih _⟩
      intro hmem
      rcases List.mem_map.mp hmem with ⟨e, he, hdate⟩
      exact dedupByDate_date_not_seen he (hdate ▸ List.mem_cons_self _ _)

/-- Deduplication keeps, for each date, exactly the first entry carrying
that date (provided the date has not been seen yet). -/
theorem dedupByDate_find? {d : String} {seen : List String} (hd : d ∉ seen)
    (l : List HistoricalValue) :
    (dedupByDate seen l).find? (fun e => e.date == d)
      = l.find? (fun e => e.date == d) := by
  induction l generalizing seen with
  | nil => rfl
  | cons x xs ih =>
    rw [dedupByDate]
    by_cases h : x.date ∈ seen
    · rw [if_pos h]
      have hxd : (x.date == d) = false := by
        simp only [beq_eq_false_iff_ne]
        intro e
        exact hd (e ▸ h)
      rw [ih hd, List.find?_cons]
      simp [hxd]
    · rw [if_neg h]
      by_cases hxd : x.date = d
      · have hb : (x.date == d) = true := beq_iff_eq.mpr hxd
        rw [List.find?_cons, List.find?_cons]
        simp [hb]
      · have hb : (x.date == d) = false := beq_eq_false_iff_ne.mpr hxd
        rw [List.find?_cons, List.find?_cons]
        simp only [hb]
        refine ih ?_
        intro hmem
        rcases List.mem_cons.mp hmem with heq | hmem'
        · exact hxd heq.symm
        · exact hd hmem'

/-- Provenance of a trend point: it can only come from a completed item
whose result is a REPORT. -/
theorem trendPoint?_some {indicatorName : String} {item : HistoryItem}
    {t : HistoricalValue} (h : trendPoint? indicatorName item = some t) :
    item.status = .completed ∧ ∃ r, item.result = some r ∧ r.type = AnalysisType.REPORT := by
  unfold trendPoint? at h
  by_cases hs : item.status = .completed
  · rw [if_pos hs] at h
    refine ⟨hs, ?_⟩
    cases hr : item.result with
    | none => rw [hr] at h; exact absurd h (by simp)
    | some r =>
      rw [hr] at h
      dsimp only at h
      by_cases ht : r.type = AnalysisType.REPORT
      · exact ⟨r, rfl, ht⟩
      · rw [if_neg ht] at h; exact absurd h (by simp)
  · rw [if_neg hs] at h; exact absurd h (by simp)

/-! ## Claim C3 -/

/-- Claim C3: for every history list held newest-first, when `saveItem`
inserts an item whose id is not yet in the list and the resulting list
would exceed 50 entries, the returned and persisted list has exactly 50
entries, with the new item at the front and the pre-insert last entry (the
oldest by list position) evicted; a list that does not exceed 50 entries
after the insert loses no entry.  Formally: the fresh-id insert prepends,
and an over-50 result is cut to the new item followed by the first 49 old
entries (for a 50-entry list, all but the last). -/
theorem claim_C3_insert_caps_history_at_50 (item : HistoryItem) (current : List HistoryItem)
    (hfresh : ∀ i ∈ current, i.id ≠ item.id) :
    (50 < current.length + 1 →
      storageService.saveItem item current = item :: current.take 49
      ∧ (storageService.saveItem item current).length = 50
      ∧ (current.length = 50 → storageService.saveItem item current = item :: current.dropLast))
    ∧ (current.length + 1 ≤ 50 → storageService.saveItem item current = item :: current) := by
  have hidx : current.findIdx? (fun i => i.id == item.id) = none :=
    List.findIdx?_eq_none_iff.mpr (fun x hx => beq_eq_false_iff_ne.mpr (hfresh x hx))
  have hsave : storageService.saveItem item current
      = if current.length + 1 > 50 then (item :: current).take 50 else item :: current := by
    simp only [storageService.saveItem, hidx, List.length_cons]
  have htake : (item :: current).take 50 = item :: current.take 49 := rfl
  constructor
  · intro hlen
    have h49 : 49 ≤ current.length := by omega
    refine ⟨?_, ?_, ?_⟩
    · rw [hsave, if_pos hlen, htake]
    · rw [hsave, if_pos hlen, htake, List.length_cons, List.length_take,
        Nat.min_eq_left h49]
    · intro h50
      rw [hsave, if_pos hlen, htake, List.dropLast_eq_take, h50]
  · intro hle
    rw [hsave, if_neg (by omega)]

/-- Claim C3, witness: inserting a fresh item into a one-entry list keeps
both entries. -/
theorem claim_C3_witness :
    storageService.saveItem { id := "b", status := HistoryStatus.processing }
        [{ id := "a", status := HistoryStatus.failed }]
      = [{ id := "b", status := HistoryStatus.processing },
         { id := "a", status := HistoryStatus.failed }] :=
  (claim_C3_insert_caps_history_at_50
    { id := "b", status := HistoryStatus.processing }
    [{ id := "a", status := HistoryStatus.failed }]
    (by decide)).2 (by decide)

/-! ## Claim C10 -/

/-- Claim C10, counterexample: `saveItem` on a 51-entry stored list (such a
list is reachable, e.g. through the legacy-localStorage migration, which
writes the parsed legacy array unchecked) with an id that already occurs at
the last position does NOT replace in place with unchanged length — the
truncation to 50 entries drops the updated entry entirely. -/
def cexC10mk (n : Nat) : HistoryItem :=
  { id := String.mk (List.replicate n 'a'), status := .failed }

/-- The 51-entry stored list for the C10 counterexample. -/
def cexC10store : List HistoryItem := (List.range 51).map cexC10mk

/-- Claim C10, counterexample theorem: the updated item's id occurs in the
stored list, yet after `saveItem` the list length shrinks from 51 to 50 and
the updated entry is gone — refuting "the list length is unchanged" and
"the updated entry stays at its original position". -/
theorem claim_C10_counterexample :
    (cexC10mk 50) ∈ cexC10store
    ∧ cexC10store.length = 51
    ∧ (storageService.saveItem (cexC10mk 50) cexC10store).length = 50
    ∧ (storageService.saveItem (cexC10mk 50) cexC10store).find?
        (fun h => h.id == (cexC10mk 50).id) = none := by
  decide

/-- Claim C10, amended: when `saveItem` is called with an item whose id
already occurs in the stored list AND the stored list does not exceed the
50-entry cap (always true for lists produced by `saveItem` itself), the
item replaces the first entry with that id in place: the length is
unchanged, the updated entry sits at the matched position, every other
position is untouched, and id-uniqueness is preserved.  An oversized stored
list is additionally truncated to its first 50 entries. -/
theorem claim_C10_amended_replace_in_place_within_cap (item : HistoryItem)
    (current : List HistoryItem) (j : Nat)
    (hidx : current.findIdx? (fun i => i.id == item.id) = some j)
    (hlen : current.length ≤ 50) :
    storageService.saveItem item current = current.set j item
    ∧ (storageService.saveItem item current).length = current.length
    ∧ (storageService.saveItem item current)[j]? = some item
    ∧ (∀ k, k ≠ j → (storageService.saveItem item current)[k]? = current[k]?)
    ∧ ((current.map (fun i => i.id)).Nodup →
        ((storageService.saveItem item current).map (fun i => i.id)).Nodup) := by
  obtain ⟨hj, hpj, -⟩ := List.findIdx?_eq_some_iff_getElem.mp hidx
  have hsave : storageService.saveItem item current = current.set j item := by
    simp only [storageService.saveItem, hidx, List.length_set]
    rw [if_neg (by omega)]
  have hids : (current[j]).id = item.id := by simpa using hpj
  refine ⟨hsave, ?_, ?_, ?_, ?_⟩
  · rw [hsave, List.length_set]
  · rw [hsave]; exact List.getElem?_set_self hj
  · intro k hk
    rw [hsave]
    exact List.getElem?_set_ne (Ne.symm hk)
  · intro hnodup
    have hmap : (current.set j item).map (fun i => i.id) = current.map (fun i => i.id) := by
      rw [List.map_set]
      apply set_eq_self_of_getElem?
      rw [List.getElem?_map, List.getElem?_eq_getElem hj, Option.map_some', hids]
    rw [hsave, hmap]
    exact hnodup

/-- Claim C10, witness: replacing the second entry of a two-entry list
keeps it in second position and leaves the first entry alone. -/
theorem claim_C10_witness :
    storageService.saveItem { id := "b", status := HistoryStatus.completed }
        [{ id := "a", status := HistoryStatus.failed },
         { id := "b", status := HistoryStatus.processing }]
      = [{ id := "a", status := HistoryStatus.failed },
         { id := "b", status := HistoryStatus.completed }] :=
  (claim_C10_amended_replace_in_place_within_cap
    { id := "b", status := HistoryStatus.completed }
    [{ id := "a", status := HistoryStatus.failed },
     { id := "b", status := HistoryStatus.processing }]
    1 (by decide) (by decide)).1

/-! ## Claim C8 -/

/-- Claim C8: the profile set is never empty after any `deleteProfile`
call — deleting the last remaining profile yields the single default
profile rather than an empty list — and when the deleted profile was the
active one while others remain, `handleDelete` reassigns the active
profile id to one of the remaining profiles (the first). -/
theorem claim_C8_profiles_never_empty_delete_fallback (id : String)
    (profiles : List UserProfile) (activeProfileId : String) :
    profileService.deleteProfile id profiles ≠ []
    ∧ (profiles.filter (fun p => !(p.id == id)) = [] →
        profileService.deleteProfile id profiles = [profileService.DEFAULT_PROFILE])
    ∧ (activeProfileId = id → profiles.filter (fun p => !(p.id == id)) ≠ [] →
        (handleDelete id profiles activeProfileId).1
            = profiles.filter (fun p => !(p.id == id))
        ∧ (handleDelete id profiles activeProfileId).2
            ∈ (handleDelete id profiles activeProfileId).1.map (fun p => p.id)) := by
  refine ⟨?_, ?_, ?_⟩
  · unfold profileService.deleteProfile
    by_cases h : (profiles.filter (fun p => !(p.id == id))).isEmpty
    · rw [if_pos h]; simp
    · rw [if_neg h]
      exact List.isEmpty_iff.not.mp h
  · intro hnil
    unfold profileService.deleteProfile
    rw [if_pos (List.isEmpty_iff.mpr hnil)]
  · intro hact hne
    have hdel : profileService.deleteProfile id profiles
        = profiles.filter (fun p => !(p.id == id)) := by
      unfold profileService.deleteProfile
      rw [if_neg (fun h => hne (List.isEmpty_iff.mp h))]
    refine ⟨?_, ?_⟩
    · show (profileService.deleteProfile id profiles) = _
      exact hdel
    · show (if (activeProfileId == id) = true then _ else _) ∈ _
      rw [if_pos (beq_iff_eq.mpr hact)]
      rcases hcons : profiles.filter (fun p => !(p.id == id)) with _ | ⟨p, ps⟩
      · exact absurd hcons hne
      · show ((profileService.deleteProfile id profiles).headD _).id
            ∈ (profileService.deleteProfile id profiles).map (fun p => p.id)
        rw [hdel, hcons]
        exact List.mem_map_of_mem _ (List.mem_cons_self p ps)

/-- Claim C8, witness: deleting the only profile yields the default
profile, and deleting the active one of two reassigns the active id to the
surviving profile. -/
theorem claim_C8_witness :
    profileService.deleteProfile "x"
        [{ id := "x", name := "X", relation := "Me", avatarColor := "#000000",
           context := {} }]
      = [profileService.DEFAULT_PROFILE]
    ∧ (handleDelete "x"
        [{ id := "x", name := "X", relation := "Me", avatarColor := "#000000",
           context := {} },
         { id := "y", name := "Y", relation := "Family", avatarColor := "#000000",
           context := {} }] "x").2 = "y" :=
  ⟨(claim_C8_profiles_never_empty_delete_fallback "x"
      [{ id := "x", name := "X", relation := "Me", avatarColor := "#000000",
         context := {} }] "x").2.1 (by decide),
   by
    have h := (claim_C8_profiles_never_empty_delete_fallback "x"
      [{ id := "x", name := "X", relation := "Me", avatarColor := "#000000",
         context := {} },
       { id := "y", name := "Y", relation := "Family", avatarColor := "#000000",
         context := {} }] "x").2.2 rfl (by decide)
    revert h
    decide⟩

/-! ## Claim C4 -/

/-- A persisted pending item for the C4 counterexample. -/
def cexC4item : HistoryItem := { id := "1", status := .processing }

/-- Claim C4, counterexample: the load-time repair is NOT written back to
persistent storage.  Starting from a store holding one `processing` item,
`init` leaves the store byte-for-byte unchanged — it still contains a
`processing` item — while only the in-memory history is repaired, refuting
"this repaired state is itself written back to persistent storage". -/
theorem claim_C4_counterexample :
    (init "interrupted" [cexC4item]).2 = [cexC4item]
    ∧ cexC4item.status = HistoryStatus.processing
    ∧ (init "interrupted" [cexC4item]).1 ≠ (init "interrupted" [cexC4item]).2 := by
  decide

/-- Claim C4, amended: on application load every persisted `processing`
item is reclassified to `failed` with the standard interrupted summary and
no result — but only in the in-memory history; the repaired state is not
written back to persistent storage.  The repair is idempotent, and because
the store is left unchanged, loading again produces the same in-memory
history. -/
theorem claim_C4_amended_load_repair_in_memory_idempotent (taskInterrupted : String)
    (store : List HistoryItem) :
    (init taskInterrupted store).2 = store
    ∧ (init taskInterrupted store).1 = store.map (cleanItem taskInterrupted)
    ∧ (∀ item : HistoryItem, item.status = .processing →
        cleanItem taskInterrupted item
          = { item with status := .failed, result := none, summary := some taskInterrupted })
    ∧ (∀ item : HistoryItem, item.status ≠ .processing →
        cleanItem taskInterrupted item = item)
    ∧ (∀ item : HistoryItem,
        cleanItem taskInterrupted (cleanItem taskInterrupted item)
          = cleanItem taskInterrupted item)
    ∧ (init taskInterrupted ((init taskInterrupted store).2)).1
        = (init taskInterrupted store).1 := by
  refine ⟨rfl, rfl, ?_, ?_, ?_, rfl⟩
  · intro item h
    unfold cleanItem
    rw [if_pos h]
  · intro item h
    unfold cleanItem
    rw [if_neg h]
  · intro item
    by_cases h : item.status = .processing
    · unfold cleanItem
      rw [if_pos h]
      rw [if_neg (by simp)]
    · unfold cleanItem
      rw [if_neg h, if_neg h]

/-- Claim C4, witness: the repair at a concrete pending item, its
no-op on a completed item, and its idempotency. -/
theorem claim_C4_witness :
    cleanItem "interrupted" { id := "1", status := .processing }
      = { id := "1", status := .failed, result := none, summary := some "interrupted" }
    ∧ cleanItem "interrupted" { id := "2", status := .completed }
      = { id := "2", status := .completed } :=
  ⟨(claim_C4_amended_load_repair_in_memory_idempotent "interrupted" []).2.2.1
      { id := "1", status := .processing } rfl,
   (claim_C4_amended_load_repair_in_memory_idempotent "interrupted" []).2.2.2.1
      { id := "2", status := .completed } (by decide)⟩

/-! ## Claim C1 -/

/-- The pending record of the C1 counterexample submission. -/
def cexC1item : HistoryItem := processingItem "42" "p1" 0 "2024-01-01" "thumb" ["img"]

/-- The application state in which the C1 counterexample submission runs. -/
def cexC1state : AppState := { history := [], store := [] }

/-- Claim C1, counterexample: with the background flag FALSE (foreground
submission), the phase of `handleAnalysis` that runs before the external
analysis call performs no history-store write at all: the write log is
empty, the store is unchanged, and no record with the new job id exists in
the store — refuting "for both values of the background flag". -/
theorem claim_C1_counterexample :
    (submitPhase false ["img"] cexC1item cexC1state).2 = []
    ∧ (submitPhase false ["img"] cexC1item cexC1state).1.store = []
    ∧ ((submitPhase false ["img"] cexC1item cexC1state).1.store.find?
        (fun h => h.id == "42")) = none := by
  decide

/-- Claim C1, amended: only when the background flag is true does the
submission phase of `handleAnalysis` persist the pending `HistoryItem` —
carrying the new job id, the currently active profile id and the
`processing` status — to the history store before the external analysis
capability is invoked (so that, in background mode, the record exists in
the store even if the process is interrupted mid-flight); in foreground
mode nothing is written before the call, and the job's record first
reaches the store at settlement. -/
theorem claim_C1_amended_pending_persisted_only_in_background
    (taskId activeProfileId : String) (now : Nat) (reportDate thumbnail : String)
    (previewImages : List String) (s : AppState) :
    (processingItem taskId activeProfileId now reportDate thumbnail previewImages).id = taskId
    ∧ (processingItem taskId activeProfileId now reportDate thumbnail previewImages).profileId
        = some activeProfileId
    ∧ (processingItem taskId activeProfileId now reportDate thumbnail previewImages).status
        = HistoryStatus.processing
    ∧ (submitPhase true previewImages
        (processingItem taskId activeProfileId now reportDate thumbnail previewImages) s).2
        = [processingItem taskId activeProfileId now reportDate thumbnail previewImages]
    ∧ (submitPhase true previewImages
        (processingItem taskId activeProfileId now reportDate thumbnail previewImages) s).1.store
        = storageService.saveItem
            (processingItem taskId activeProfileId now reportDate thumbnail previewImages)
            s.store
    ∧ ((∀ i ∈ s.store, i.id ≠ taskId) →
        (submitPhase true previewImages
          (processingItem taskId activeProfileId now reportDate thumbnail previewImages)
          s).1.store.head?
          = some (processingItem taskId activeProfileId now reportDate thumbnail previewImages))
    ∧ (submitPhase false previewImages
        (processingItem taskId activeProfileId now reportDate thumbnail previewImages) s).2 = []
    ∧ (submitPhase false previewImages
        (processingItem taskId activeProfileId now reportDate thumbnail previewImages) s).1.store
        = s.store := by
  refine ⟨rfl, rfl, rfl, rfl, rfl, ?_, rfl, rfl⟩
  intro hfresh
  have hidx : s.store.findIdx?
      (fun i => i.id == (processingItem taskId activeProfileId now reportDate thumbnail
        previewImages).id) = none :=
    List.findIdx?_eq_none_iff.mpr (fun x hx => beq_eq_false_iff_ne.mpr (hfresh x hx))
  show (storageService.saveItem _ s.store).head? = _
  simp only [storageService.saveItem, hidx, List.length_cons]
  by_cases hlen : s.store.length + 1 > 50
  · rw [if_pos hlen]
    rfl
  · rw [if_neg hlen]
    rfl

/-- Claim C1, witness: a concrete background submission over an empty
store puts the pending record at the head of the store. -/
theorem claim_C1_witness :
    (submitPhase true ["img"] (processingItem "7" "p1" 0 "2024-01-01" "t" ["img"])
        { history := [], store := [] }).1.store.head?
      = some (processingItem "7" "p1" 0 "2024-01-01" "t" ["img"]) :=
  (claim_C1_amended_pending_persisted_only_in_background "7" "p1" 0 "2024-01-01" "t"
    ["img"] { history := [], store := [] }).2.2.2.2.2.1 (by decide)

/-! ## Claim C2 -/

/-- Claim C2: for every submitted job, settlement of the external analysis
call (`performAnalysis`) writes exactly one terminal record under that
job's id: on success a `completed` record carrying the parsed result, on
any rejection a `failed` record whose summary is the error's human-readable
message (`err.message`, with the language's generic message substituted
when the error carries no usable message, mirroring
`err.message || t.errorGeneric`); never both for one job.  The rejection is
consumed by the embedded `catch` clause — `performAnalysis` is total, so
nothing propagates as an unhandled rejection. -/
theorem claim_C2_settlement_exactly_one_terminal_write (runInBackground : Bool)
    (item : HistoryItem) (outcome : Except JsError AnalysisResult)
    (errorGeneric : String) (s : AppState) :
    ∃ term : HistoryItem,
      (performAnalysis runInBackground item outcome errorGeneric s).2 = [term]
      ∧ term.id = item.id
      ∧ (performAnalysis runInBackground item outcome errorGeneric s).1.store
          = storageService.saveItem term s.store
      ∧ match outcome with
        | .ok data =>
            term.status = HistoryStatus.completed ∧ term.result = some data
        | .error err =>
            term.status = HistoryStatus.failed
            ∧ term.summary = some (jsOrString err.message errorGeneric)
            ∧ term.result = item.result := by
  cases outcome with
  | ok data =>
    cases runInBackground with
    | false => exact ⟨_, rfl, rfl, rfl, rfl, rfl⟩
    | true => exact ⟨_, rfl, rfl, rfl, rfl, rfl⟩
  | error err =>
    cases runInBackground with
    | false => exact ⟨_, rfl, rfl, rfl, rfl, rfl, rfl⟩
    | true => exact ⟨_, rfl, rfl, rfl, rfl, rfl, rfl⟩

/-! ## Claim C9 -/

/-- A failed history item referenced by the C9 counterexample. -/
def cexC9item : HistoryItem := { id := "1", status := .failed, chatHistory := some [] }

/-- The application state of the C9 counterexample: the active history id
references the failed item. -/
def cexC9state : AppState :=
  { history := [cexC9item], store := [cexC9item], activeHistoryId := some "1" }

/-- Claim C9, counterexample: `handleChatUpdate` performs no status check.
Called while the active history id references a `failed` item, it mutates
that item: the in-memory history and the persisted store change (the
item's chat transcript is overwritten) — refuting "does not mutate that
item or the persisted history in any way". -/
theorem claim_C9_counterexample :
    cexC9item.status = HistoryStatus.failed
    ∧ (handleChatUpdate [{ role := .user, content := "hi" }] cexC9state).history
        ≠ cexC9state.history
    ∧ (handleChatUpdate [{ role := .user, content := "hi" }] cexC9state).store
        ≠ cexC9state.store := by
  decide

/-- Claim C9, amended: `handleChatUpdate` checks only that the active
history id is set (truthy) and that an item with that id exists in the
in-memory history; when it does, it replaces that item's chat transcript
with the given messages and persists the update regardless of the item's
status (the item's id, status and result are untouched — no call changes
any item's status); when the active id is null, empty, or references no
item, the call is a no-op and does not throw. -/
theorem claim_C9_amended_no_status_check_transcript_replaced
    (newMessages : List ChatMessage) (s : AppState) :
    (s.activeHistoryId = none → handleChatUpdate newMessages s = s)
    ∧ (s.activeHistoryId = some "" → handleChatUpdate newMessages s = s)
    ∧ (∀ id, s.activeHistoryId = some id → id ≠ "" →
        s.history.find? (fun h => h.id == id) = none →
        handleChatUpdate newMessages s = s)
    ∧ (∀ id item, s.activeHistoryId = some id → id ≠ "" →
        s.history.find? (fun h => h.id == id) = some item →
        handleChatUpdate newMessages s
            = saveToHistory { item with chatHistory := some newMessages } s
        ∧ ({ item with chatHistory := some newMessages } : HistoryItem).status = item.status
        ∧ ({ item with chatHistory := some newMessages } : HistoryItem).id = item.id
        ∧ ({ item with chatHistory := some newMessages } : HistoryItem).result
            = item.result) := by
  refine ⟨?_, ?_, ?_, ?_⟩
  · intro h
    unfold handleChatUpdate
    rw [h]
  · intro h
    unfold handleChatUpdate
    rw [h]
    dsimp only
    rw [if_pos (by decide)]
  · intro id hid hne hfind
    unfold handleChatUpdate
    rw [hid]
    dsimp only
    rw [if_neg (by simpa using hne), hfind]
  · intro id item hid hne hfind
    refine ⟨?_, rfl, rfl, rfl⟩
    unfold handleChatUpdate
    rw [hid]
    dsimp only
    rw [if_neg (by simpa using hne), hfind]

/-- Claim C9, witness: a concrete call on a state whose active id
references a completed item persists the new transcript for that item. -/
theorem claim_C9_witness :
    handleChatUpdate [{ role := .user, content := "hi" }]
        { history := [{ id := "1", status := .completed, chatHistory := some [] }],
          store := [{ id := "1", status := .completed, chatHistory := some [] }],
          activeHistoryId := some "1" }
      = saveToHistory
          { id := "1", status := .completed,
            chatHistory := some [{ role := .user, content := "hi" }] }
          { history := [{ id := "1", status := .completed, chatHistory := some [] }],
            store := [{ id := "1", status := .completed, chatHistory := some [] }],
            activeHistoryId := some "1" } :=
  ((claim_C9_amended_no_status_check_transcript_replaced
      [{ role := .user, content := "hi" }]
      { history := [{ id := "1", status := .completed, chatHistory := some [] }],
        store := [{ id := "1", status := .completed, chatHistory := some [] }],
        activeHistoryId := some "1" }).2.2.2 "1"
    { id := "1", status := .completed, chatHistory := some [] }
    rfl (by decide) (by decide)).1

/-! ## Claim C5 -/

/-- A one-indicator REPORT result used by the C5 counterexample. -/
def cexC5rep (v : Int) : AnalysisResult :=
  { type := .REPORT,
    indicators := some [{ name := "Glucose", value := toString v, valueNumber := some v }] }

/-- First-scanned completed item of the C5 counterexample. -/
def cexC5itemA : HistoryItem :=
  { id := "a", status := .completed, reportDate := some "2024-01-01",
    result := some (cexC5rep 1) }

/-- Second-scanned completed item of the C5 counterexample, same resolved
date, different value. -/
def cexC5itemB : HistoryItem :=
  { id := "b", status := .completed, reportDate := some "2024-01-01",
    result := some (cexC5rep 2) }

/-- Claim C5, counterexample: two matching completed items resolve to the
same date string and contribute values 1 (scanned first) and 2 (scanned
second); the returned series keeps the entry of the item scanned FIRST
(value 1), refuting "it is the entry from the item scanned later
(last-write-wins)". -/
theorem claim_C5_counterexample :
    trendPoints [cexC5itemA, cexC5itemB] "p" "Glucose"
      = [{ date := "2024-01-01", value := 1, isCurrent := false },
         { date := "2024-01-01", value := 2, isCurrent := false }]
    ∧ getIndicatorTrend [cexC5itemA, cexC5itemB] "p" "Glucose" 0 "2024-02-02"
      = [{ date := "2024-01-01", value := 1, isCurrent := false }] := by
  decide

/-- Claim C5, amended: when two matching completed items resolve to the
same date string, exactly one entry for that date is kept, and it is the
entry from the item scanned EARLIER (first-write-wins in scan order over
the history list): the stable sort keeps equal-date entries in scan order
and the deduplication keeps the first occurrence.  Formally: for every
date, the series' entry for that date is the first scan-order trend point
with that date (only its `isCurrent` flag recomputed), and dates in the
series are pairwise distinct. -/
theorem claim_C5_amended_dedup_keeps_first_scanned (history : List HistoryItem)
    (activeProfileId indicatorName : String) (currentVal : Int) (currentDate d : String) :
    (getIndicatorTrend history activeProfileId indicatorName currentVal currentDate).find?
        (fun e => e.date == d)
      = ((trendPoints history activeProfileId indicatorName).find?
          (fun e => e.date == d)).map
          (fun t => { t with isCurrent := t.date == currentDate })
    ∧ ((getIndicatorTrend history activeProfileId indicatorName currentVal
        currentDate).map (fun e => e.date)).Nodup := by
  constructor
  · unfold getIndicatorTrend
    rw [List.find?_map]
    have hcomp : ((fun e : HistoricalValue => e.date == d) ∘
        (fun t : HistoricalValue => { t with isCurrent := t.date == currentDate }))
        = fun e : HistoricalValue => e.date == d := rfl
    rw [hcomp]
    rw [dedupByDate_find? (by simp) _]
    rw [find?_eq_head?_filter, sortByParsedDate_filter, ← find?_eq_head?_filter]
  · unfold getIndicatorTrend
    rw [List.map_map]
    exact dedupByDate_dates_nodup [] _

/-! ## Claim C6 -/

/-- Claim C6: for every history list, indicator name, current value and
current date, the series returned by `getIndicatorTrend` has
pairwise-distinct date strings, is sorted ascending by parsed date, and an
entry has `isCurrent = true` if and only if its date string equals the
given `currentDate` (so if no entry's date equals it, no entry is marked). -/
theorem claim_C6_series_sorted_distinct_isCurrent (history : List HistoryItem)
    (activeProfileId indicatorName : String) (currentVal : Int) (currentDate : String) :
    (getIndicatorTrend history activeProfileId indicatorName currentVal
        currentDate).Pairwise (fun a b => parseTime a.date ≤ parseTime b.date)
    ∧ ((getIndicatorTrend history activeProfileId indicatorName currentVal
        currentDate).map (fun e => e.date)).Nodup
    ∧ ∀ e ∈ getIndicatorTrend history activeProfileId indicatorName currentVal currentDate,
        (e.isCurrent = true ↔ e.date = currentDate) := by
  refine ⟨?_, ?_, ?_⟩
  · unfold getIndicatorTrend
    rw [List.pairwise_map]
    exact List.Pairwise.sublist (dedupByDate_sublist [] _) (sortByParsedDate_pairwise _)
  · unfold getIndicatorTrend
    rw [List.map_map]
    exact dedupByDate_dates_nodup [] _
  · intro e he
    unfold getIndicatorTrend at he
    rcases List.mem_map.mp he with ⟨t, _, rfl⟩
    show ((t.date == currentDate) : Bool) = true ↔ t.date = currentDate
    exact beq_iff_eq

/-- The REPORT result of the C6 witness item. -/
def cexC6rep : AnalysisResult :=
  { type := .REPORT,
    indicators := some [{ name := "Glucose", value := "1", valueNumber := some 1 }] }

/-- A completed REPORT item for the C6 witness. -/
def cexC6item : HistoryItem :=
  { id := "a", status := .completed, reportDate := some "2024-01-01",
    result := some cexC6rep }

/-- Claim C6, witness: the single entry of a concrete series, whose date
equals the current date, is marked `isCurrent`. -/
theorem claim_C6_witness :
    (({ date := "2024-01-01", value := 1, isCurrent := true } : HistoricalValue).isCurrent
        = true)
      ↔ ({ date := "2024-01-01", value := 1, isCurrent := true } : HistoricalValue).date
        = "2024-01-01" :=
  (claim_C6_series_sorted_distinct_isCurrent [cexC6item] "p" "Glucose" 1 "2024-01-01").2.2
    { date := "2024-01-01", value := 1, isCurrent := true } (by decide)

/-! ## Claim C7 -/

/-- Claim C7: `getIndicatorTrend` draws points only from completed items
whose result is of type REPORT and that either carry the given profile id
or carry no profile id at all (`undefined`, or the degenerate empty string,
which JavaScript's truthiness test likewise treats as absent); an item
carrying a different (non-empty) profile id contributes no point to the
series. -/
theorem claim_C7_profile_scoping (history : List HistoryItem)
    (activeProfileId indicatorName : String) (currentVal : Int) (currentDate : String) :
    (∀ e ∈ getIndicatorTrend history activeProfileId indicatorName currentVal currentDate,
        ∃ h ∈ history,
          (h.profileId = none ∨ h.profileId = some "" ∨ h.profileId = some activeProfileId)
          ∧ h.status = HistoryStatus.completed
          ∧ ∃ r, h.result = some r ∧ r.type = AnalysisType.REPORT)
    ∧ (∀ (l₁ l₂ : List HistoryItem) (q : String) (other : HistoryItem),
        q ≠ "" → q ≠ activeProfileId → other.profileId = some q →
        getIndicatorTrend (l₁ ++ other :: l₂) activeProfileId indicatorName currentVal
            currentDate
          = getIndicatorTrend (l₁ ++ l₂) activeProfileId indicatorName currentVal
            currentDate) := by
  constructor
  · intro e he
    unfold getIndicatorTrend at he
    rcases List.mem_map.mp he with ⟨t, ht, rfl⟩
    have ht2 : t ∈ sortByParsedDate (trendPoints history activeProfileId indicatorName) :=
      (dedupByDate_sublist [] _).subset ht
    have ht3 : t ∈ trendPoints history activeProfileId indicatorName :=
      (sortByParsedDate_perm _).mem_iff.mp ht2
    unfold trendPoints at ht3
    rcases List.mem_filterMap.mp ht3 with ⟨h, hmem, hpt⟩
    rcases List.mem_filter.mp hmem with ⟨hh, hpm⟩
    obtain ⟨hstatus, r, hr, htype⟩ := trendPoint?_some hpt
    have hprof : h.profileId = none ∨ h.profileId = some ""
        ∨ h.profileId = some activeProfileId := by
      have hpm2 : jsFalsy h.profileId = true
          ∨ (h.profileId == some activeProfileId) = true := by
        simpa [profileMatches] using hpm
      rcases hpm2 with hf | hb
      · cases hp : h.profileId with
        | none => exact Or.inl rfl
        | some sId =>
          rw [hp] at hf
          have hsId : sId = "" := by simpa [jsFalsy] using hf
          exact Or.inr (Or.inl (congrArg some hsId))
      · exact Or.inr (Or.inr (beq_iff_eq.mp hb))
    exact ⟨h, hh, hprof, hstatus, r, hr, htype⟩
  · intro l₁ l₂ q other hq hqp hprofile
    have hpm : profileMatches activeProfileId other = false := by
      simp [profileMatches, jsFalsy, hprofile, hq, hqp]
    unfold getIndicatorTrend trendPoints
    rw [List.filter_append, List.filter_cons, if_neg (by simp [hpm]), ← List.filter_append]

/-- The REPORT result of the C7 witness item. -/
def cexC7rep : AnalysisResult :=
  { type := .REPORT,
    indicators := some [{ name := "Glucose", value := "9", valueNumber := some 9 }] }

/-- An item of another profile for the C7 witness. -/
def cexC7other : HistoryItem :=
  { id := "c", profileId := some "q", status := .completed,
    reportDate := some "2023-01-01", result := some cexC7rep }

/-- Claim C7, witness: prepending a completed REPORT item that carries a
different profile id leaves a concrete series unchanged. -/
theorem claim_C7_witness :
    getIndicatorTrend ([] ++ cexC7other :: []) "p" "Glucose" 0 "2024-01-01"
      = getIndicatorTrend ([] ++ []) "p" "Glucose" 0 "2024-01-01" :=
  (claim_C7_profile_scoping [] "p" "Glucose" 0 "2024-01-01").2 [] [] "q" cexC7other
    (by decide) (by decide) rfl
